import Mathlib

/-!
Shallow embedding of the `dom_analyzer` package (accessibility parser,
element indexer, DOM analyzer cache) and proofs about it.

Python dictionaries are modelled as insertion-ordered association lists
(`List (k × v)`): lookup returns the value of the first matching key,
`d[k] = v` replaces the value in place when the key is present and appends
otherwise, `del d[k]` removes the binding.  Python strings are modelled as
Lean `String`s; `str.strip`/`str.replace` are re-implemented on the
character list so that every definition reduces in the kernel.
-/

namespace DomAnalyzer

/-- First-match lookup in an association list, as for a Python dict. -/
def alookup {α β : Type} [DecidableEq α] : List (α × β) → α → Option β
  | [], _ => none
  | (k, v) :: rest, a => if k = a then some v else alookup rest a

/-- Python dict assignment `d[k] = v`: replace in place or append. -/
def ainsert {α β : Type} [DecidableEq α] : List (α × β) → α → β → List (α × β)
  | [], a, b => [(a, b)]
  | (k, v) :: rest, a, b =>
      if k = a then (k, b) :: rest else (k, v) :: ainsert rest a b

/-- Python dict deletion `del d[k]` (no-op when the key is absent). -/
def aremove {α β : Type} [DecidableEq α] : List (α × β) → α → List (α × β)
  | [], _ => []
  | (k, v) :: rest, a => if k = a then rest else (k, v) :: aremove rest a

/-- Keys of an association list, in insertion order. -/
def akeys {α β : Type} (l : List (α × β)) : List α := l.map Prod.fst

/-- A dynamically-typed Python value as it appears in CDP payloads:
either a string or a boolean.  (`None` is modelled by wrapping in
`Option` at the use sites.) -/
inductive PyVal : Type
  | str (s : String)
  | bool (b : Bool)
deriving DecidableEq

/-- Python truthiness of a `PyVal`: a string is truthy iff non-empty. -/
def PyVal.truthy : PyVal → Bool
  | .str s => s ≠ ""
  | .bool b => b

/-- Python truthiness of an optional value (`None` is falsy). -/
def optTruthy : Option PyVal → Bool
  | none => false
  | some v => v.truthy

/-- Whitespace characters stripped by Python `str.strip()`. -/
def isPySpace (c : Char) : Bool :=
  c = ' ' || c = '\t' || c = '\n' || c = '\r' || c = Char.ofNat 11 || c = Char.ofNat 12

/-- Python `str.strip()` on both ends. -/
def pyStrip (s : String) : String :=
  String.mk (((s.data.dropWhile isPySpace).reverse.dropWhile isPySpace).reverse)

/-- Python `str.replace` restricted to a single-character pattern, which is
the only form the source uses (escaping quote characters in XPaths). -/
def replaceChar (target : Char) (rep : List Char) (s : String) : String :=
  String.mk (s.data.foldr (fun ch acc => if ch = target then rep ++ acc else ch :: acc) [])

/-! ### Configuration (`src/dom_analyzer/config.py`)

Only the fields a claim depends on are carried; the CDP connection
settings are consulted by no claim and are omitted. -/

structure AccessibilityConfig where
  min_text_length : Nat
  max_text_length : Nat
  interactive_roles : List String
deriving DecidableEq

def defaultAccessibilityConfig : AccessibilityConfig :=
  { min_text_length := 1
    max_text_length := 500
    interactive_roles :=
      ["button", "link", "textbox", "checkbox", "radio",
       "combobox", "listbox", "menu", "menuitem", "tab",
       "dialog", "alert", "toolbar", "grid", "gridcell"] }

structure IndexingConfig where
  use_stable_indices : Bool
  cache_duration : Int
  max_elements : Nat
  max_interactive : Nat
deriving DecidableEq

def defaultIndexingConfig : IndexingConfig :=
  { use_stable_indices := true, cache_duration := 30
    max_elements := 1000, max_interactive := 200 }

structure DOMAnalyzerConfig where
  accessibility : AccessibilityConfig
  indexing : IndexingConfig
deriving DecidableEq

def defaultConfig : DOMAnalyzerConfig :=
  { accessibility := defaultAccessibilityConfig, indexing := defaultIndexingConfig }

/-! ### Enumerations (`src/dom_analyzer/types.py`) -/

/-- The value strings of the `ElementRole` enum; `ElementRole(r)` succeeds
exactly when `r` is in this list. -/
def elementRoleValues : List String :=
  ["button", "link", "textbox", "checkbox", "radio", "combobox", "listbox",
   "menu", "menuitem", "tab", "tabpanel", "dialog", "alert", "status",
   "toolbar", "tooltip", "grid", "gridcell", "row", "column", "rowheader",
   "columnheader", "generic"]

/-- The member names of the `ElementState` enum (`ElementState.__members__`
is keyed by the upper-case Python identifiers, not the enum values). -/
def elementStateMemberNames : List String :=
  ["VISIBLE", "HIDDEN", "DISABLED", "READONLY", "REQUIRED", "INVALID",
   "EXPANDED", "COLLAPSED", "SELECTED", "CHECKED", "FOCUSED"]

/-- The value strings of the `ElementState` enum. -/
def elementStateValues : List String :=
  ["visible", "hidden", "disabled", "readonly", "required", "invalid",
   "expanded", "collapsed", "selected", "checked", "focused"]

/-! ### Raw CDP accessibility data

A raw AX node as the parser reads it.  The nested `{"value": ...}`
wrappers of the CDP payload are pre-flattened: each field holds the result
of the corresponding chain of `.get` calls, with `Option` standing for an
absent field or a `None` value. -/

structure RawProp where
  /-- Models `prop_data.get('name', \x7b\x7d).get('value', '')` -/
  name : String
  /-- Models `prop_data.get('value', \x7b\x7d).get('value')` -/
  value : Option PyVal
deriving DecidableEq

structure RawNode where
  nodeId : Nat
  /-- the `role.value` string when present; `none` models both a missing
  `role` dict and a dict without a `value` key (both default to generic) -/
  role : Option String
  name : Option String
  value : Option String
  description : Option String
  properties : List RawProp
  checked : Option PyVal
  expanded : Option PyVal
  selected : Option PyVal
  disabled : Option PyVal
  readonly : Option PyVal
  required : Option PyVal
  invalid : Option PyVal
  focused : Option PyVal
  hidden : Option PyVal
  childIds : List Nat
  parentId : Option Nat
  backendDOMNodeId : Option Nat
  ignored : Bool
deriving DecidableEq

/-- A raw node with every optional field absent. -/
def emptyRawNode : RawNode :=
  { nodeId := 0, role := none, name := none, value := none, description := none
    properties := [], checked := none, expanded := none, selected := none
    disabled := none, readonly := none, required := none, invalid := none
    focused := none, hidden := none, childIds := [], parentId := none
    backendDOMNodeId := none, ignored := false }

/-! ### Parser data model (`src/dom_analyzer/accessibility_parser.py`) -/

structure AXProperty where
  name : String
  value : PyVal
  source : String
deriving DecidableEq

structure ParsedAXNode where
  node_id : Nat
  role : String
  name : String
  value : Option String
  description : Option String
  properties : List AXProperty
  states : List String
  children : List Nat
  parent_id : Option Nat
  backend_dom_node_id : Option Nat
  ignored : Bool
  is_interactive : Bool
deriving DecidableEq

/-- Embeds `AccessibilityNode` (`src/dom_analyzer/types.py`).  The `state` dict has
type `Dict[str, Any]` in the source; every value the code base ever stores
there is a boolean (the parser stores only `True`), so values are `Bool`. -/
structure AccessibilityNode where
  node_id : Nat
  role : String
  name : String
  value : Option String
  description : Option String
  state : List (String × Bool)
  children : List Nat
  parent_id : Option Nat
  backend_dom_node_id : Option Nat
deriving DecidableEq

namespace AccessibilityParser

/-- The hard-coded `important_states` set of the parser. -/
def importantStates : List String :=
  ["expanded", "collapsed", "selected", "checked", "pressed",
   "disabled", "readonly", "required", "invalid", "focused",
   "hidden", "visible", "busy", "live"]

/-- Embeds `AccessibilityParser._parse_node_properties` -/
def parse_node_properties (d : RawNode) : List AXProperty :=
  (d.properties.filterMap fun p =>
    match p.value with
    | some v => if p.name ≠ "" then some ⟨p.name, v, "accessibility"⟩ else none
    | none => none)
  ++ (match d.checked with | some v => [⟨"checked", v, "node"⟩] | none => [])
  ++ (match d.expanded with | some v => [⟨"expanded", v, "node"⟩] | none => [])
  ++ (match d.selected with | some v => [⟨"selected", v, "node"⟩] | none => [])
  ++ (match d.disabled with | some v => [⟨"disabled", v, "node"⟩] | none => [])

/-- Embeds `AccessibilityParser._extract_node_states` -/
def extract_node_states (d : RawNode) : List String :=
  (d.properties.filterMap fun p =>
    if p.name ∈ importantStates ∧ optTruthy p.value then some p.name else none)
  ++ (if optTruthy d.checked then ["checked"] else [])
  ++ (if optTruthy d.expanded then ["expanded"] else [])
  ++ (if optTruthy d.selected then ["selected"] else [])
  ++ (if optTruthy d.disabled then ["disabled"] else [])
  ++ (if optTruthy d.readonly then ["readonly"] else [])
  ++ (if optTruthy d.required then ["required"] else [])
  ++ (if optTruthy d.invalid then ["invalid"] else [])
  ++ (if optTruthy d.focused then ["focused"] else [])
  ++ (if optTruthy d.hidden then ["hidden"] else ["visible"])

/-- Embeds `AccessibilityParser.is_text_valid` -/
def is_text_valid (cfg : AccessibilityConfig) (text : String) : Bool :=
  text ≠ "" &&
    cfg.min_text_length ≤ (pyStrip text).length &&
    (pyStrip text).length ≤ cfg.max_text_length

/-- Embeds `AccessibilityParser._parse_single_node` (total: the `except` branch
models a Python runtime error and is unreachable on well-typed data). -/
def parse_single_node (cfg : AccessibilityConfig) (d : RawNode) : ParsedAXNode :=
  let role := d.role.getD "generic"
  let name0 := d.name.getD ""
  let name := if is_text_valid cfg name0 then name0 else ""
  { node_id := d.nodeId
    role := role
    name := name
    value := d.value
    description := d.description
    properties := parse_node_properties d
    states := extract_node_states d
    children := d.childIds
    parent_id := d.parentId
    backend_dom_node_id := d.backendDOMNodeId
    ignored := d.ignored
    is_interactive := false }

/-- Embeds `AccessibilityParser._is_node_interactive` -/
def is_node_interactive (cfg : AccessibilityConfig) (node : ParsedAXNode) : Bool :=
  if node.role ∈ cfg.interactive_roles then true
  else if node.states.any (fun s => decide (s ∈ ["button", "link", "menuitem", "tab"])) then true
  else if node.properties.any
      (fun p => decide (p.name ∈ ["clickable", "pressable", "selectable"]) && p.value.truthy) then true
  else if node.properties.any
      (fun p => decide (p.name ∈ ["onclick", "onkeydown", "onkeyup", "onsubmit"])) then true
  else false

/-- Embeds `AccessibilityParser._convert_to_accessibility_node`.  Note that the
`properties_dict` the source builds is discarded: `AccessibilityNode` has
no properties field, so parsed properties never survive the conversion. -/
def convert_to_accessibility_node (p : ParsedAXNode) : AccessibilityNode :=
  { node_id := p.node_id
    role := p.role
    name := p.name
    value := p.value
    description := p.description
    state := p.states.foldl (fun d s => ainsert d s true) []
    children := p.children
    parent_id := p.parent_id
    backend_dom_node_id := p.backend_dom_node_id }

/-- Embeds `AccessibilityParser.parse_accessibility_tree`.  `none` models input
that is falsy or lacks a `nodes` key. -/
def parse_accessibility_tree (cfg : AccessibilityConfig)
    (tree : Option (List RawNode)) : List AccessibilityNode :=
  match tree with
  | none => []
  | some nodes =>
      (nodes.map (parse_single_node cfg)).map fun p =>
        convert_to_accessibility_node { p with is_interactive := is_node_interactive cfg p }

end AccessibilityParser

/-! ### Element indexer (`src/dom_analyzer/element_indexer.py`) -/

/-- Embeds `IndexedElement` (`src/dom_analyzer/types.py`).  The `role` and
`states` enum members are represented by their value strings.  The bounding
box is `Optional[Dict[str, int]]` in the source and
`_extract_bounding_box` always returns `None`. -/
structure IndexedElement where
  index : Nat
  role : String
  text : String
  tag_name : String
  attributes : List (String × String)
  states : List String
  xpath : String
  bounding_box : Option (List (String × Int))
  is_interactive : Bool
  parent_index : Option Nat
  children_indices : List Nat
deriving DecidableEq

/-- Embeds the `IndexedNode` dataclass of the indexer. -/
structure IndexedNode where
  node : AccessibilityNode
  index : Nat
  parent_index : Option Nat
  children_indices : List Nat
  depth : Nat
  is_new : Bool
  bounding_box : Option (List (String × Int))
  xpath : String
  tag_name : String
  attributes : List (String × String)
  is_interactive : Bool
  interactive_type : String
deriving DecidableEq

/-- The mutable state of an `ElementIndexer` instance.  The
`IndexingContext` record (timestamp, dom hash, element counts) is pure
metadata read by no claim and is omitted; the md5 dom hash is likewise
metadata only. -/
structure IState where
  element_counter : Nat
  index_to_node : List (Nat × IndexedNode)
  node_id_to_index : List (Nat × Nat)
  xpath_to_index : List (String × Nat)
  previous_indices : List (Nat × Nat)
  previous_xpaths : List (String × Nat)
  stats_total_indexed : Nat
  stats_interactive_indexed : Nat
  stats_cached_hits : Nat
  stats_cache_misses : Nat
deriving DecidableEq

/-- The state of a freshly constructed `ElementIndexer`. -/
def initIState : IState :=
  { element_counter := 0, index_to_node := [], node_id_to_index := []
    xpath_to_index := [], previous_indices := [], previous_xpaths := []
    stats_total_indexed := 0, stats_interactive_indexed := 0
    stats_cached_hits := 0, stats_cache_misses := 0 }

namespace ElementIndexer

/-- Truthiness of `node.state.get(key, False)`. -/
def stateGet (state : List (String × Bool)) (key : String) : Bool :=
  (alookup state key).getD false

/-- Embeds `ElementIndexer._should_index_node`. -/
def should_index_node (cfg : DOMAnalyzerConfig) (node : AccessibilityNode) : Bool :=
  if stateGet node.state "hidden" then false
  else if node.name = "" ∧ node.role = "generic" then false
  else if node.name ≠ "" ∧ node.name.length > cfg.accessibility.max_text_length then false
  else true

/-- The hard-coded `interactive_roles` set of `_determine_index_type`. -/
def indexerInteractiveRoles : List String :=
  ["button", "link", "textbox", "checkbox", "radio",
   "combobox", "listbox", "menu", "menuitem", "tab",
   "dialog", "alert", "toolbar", "grid", "gridcell"]

/-- The hard-coded `interactive_states` set of `_determine_index_type`.
Membership is tested against the keys of the `state` dict. -/
def indexerInteractiveStates : List String :=
  ["clickable", "pressable", "selectable", "focusable"]

/-- Embeds `ElementIndexer._determine_index_type`. -/
def determine_index_type (node : AccessibilityNode) : String :=
  if node.role ∈ indexerInteractiveRoles then "interactive"
  else if indexerInteractiveStates.any (fun s => (alookup node.state s).isSome) then "interactive"
  else "element"

/-- Embeds `ElementIndexer._get_or_create_interactive_index`. -/
def get_or_create_interactive_index (s : IState) (node : AccessibilityNode) :
    IState × Nat :=
  let hit : Option Nat :=
    match alookup s.node_id_to_index node.node_id with
    | some cached_index =>
        match alookup s.index_to_node cached_index with
        | some cached_node => if cached_node.is_interactive then some cached_index else none
        | none => none
    | none => none
  match hit with
  | some i => ({ s with stats_cached_hits := s.stats_cached_hits + 1 }, i)
  | none =>
      ({ s with element_counter := s.element_counter + 1
                stats_cache_misses := s.stats_cache_misses + 1 }, s.element_counter)

/-- Embeds `ElementIndexer._get_or_create_element_index`. -/
def get_or_create_element_index (s : IState) (node : AccessibilityNode) :
    IState × Nat :=
  let hit : Option Nat :=
    match alookup s.node_id_to_index node.node_id with
    | some cached_index =>
        match alookup s.index_to_node cached_index with
        | some _ => some cached_index
        | none => none
    | none => none
  match hit with
  | some i => ({ s with stats_cached_hits := s.stats_cached_hits + 1 }, i)
  | none =>
      ({ s with element_counter := s.element_counter + 1
                stats_cache_misses := s.stats_cache_misses + 1 }, s.element_counter)

/-- One iteration step plus fuel for the `while` loop of
`_calculate_depth`.  `none` means the fuel ran out, which models a
non-terminating execution of the Python loop (claim C8). -/
def calc_depth_go (nid : List (Nat × Nat)) (itn : List (Nat × IndexedNode)) :
    Nat → Option Nat → Nat → Option Nat
  | 0, _, _ => none
  | _ + 1, none, depth => some depth
  | fuel + 1, some pid, depth =>
      match alookup nid pid with
      | none => some (depth + 1)
      | some parent_index =>
          match alookup itn parent_index with
          | none => some (depth + 1)
          | some parent_node => calc_depth_go nid itn fuel parent_node.node.parent_id (depth + 1)

/-- Embeds `ElementIndexer._calculate_depth`.  A terminating run of the
Python loop visits each entry of `_index_to_node` at most once (the walk
is deterministic, so a revisit cycles forever), hence
`itn.length + 2` fuel is enough for every terminating run; runs that
exhaust the fuel are exactly the diverging ones, and the fallback value 0
is never observable because `depth` is dropped on conversion to
`IndexedElement`. -/
def calculate_depth (s : IState) (node : AccessibilityNode) : Nat :=
  (calc_depth_go s.node_id_to_index s.index_to_node
    (s.index_to_node.length + 2) node.parent_id 0).getD 0

/-- Embeds `ElementIndexer._get_parent_index`. -/
def get_parent_index (s : IState) (node : AccessibilityNode) : Option Nat :=
  match node.parent_id with
  | none => none
  | some pid => alookup s.node_id_to_index pid

/-- Embeds `ElementIndexer._get_children_indices`. -/
def get_children_indices (s : IState) (node : AccessibilityNode) : List Nat :=
  node.children.filterMap (alookup s.node_id_to_index)

/-- Escapes a double quote by a backslash, as `name.replace('"', '\\"')`. -/
def escapeDQ (s : String) : String := replaceChar '"' ['\\', '"'] s

/-- Escapes a single quote (character 39) by a backslash. -/
def escapeSQ (s : String) : String :=
  replaceChar (Char.ofNat 39) ['\\', Char.ofNat 39] s

/-- Embeds `ElementIndexer._generate_xpath`. -/
def generate_xpath (node : AccessibilityNode) : String :=
  let parts : List String :=
    (if node.role ≠ "" ∧ node.role ≠ "generic" then [node.role] else [])
    ++ (if node.name ≠ "" then
          ["[@name=\"" ++ escapeSQ (escapeDQ node.name) ++ "\"]"] else [])
    ++ (match node.value with
        | some v => if v ≠ "" then ["[@value=\"" ++ escapeSQ (escapeDQ v) ++ "\"]"] else []
        | none => [])
  match parts with
  | [] => "//generic"
  | p :: rest => "//" ++ p ++ String.join rest

/-- Embeds `ElementIndexer._is_node_new`. -/
def is_node_new (s : IState) (node : AccessibilityNode) : Bool :=
  if (alookup s.previous_indices node.node_id).isSome then false
  else if (alookup s.previous_xpaths (generate_xpath node)).isSome then false
  else true

/-- Embeds `ElementIndexer._extract_tag_name` (`node.role or 'generic'`;
the DOM-data branch is a TODO in the source). -/
def extract_tag_name (node : AccessibilityNode) : String :=
  if node.role ≠ "" then node.role else "generic"

/-- Embeds `ElementIndexer._extract_attributes`.  With boolean state
values the `is True`/`is False` tests cover every entry. -/
def extract_attributes (node : AccessibilityNode) : List (String × String) :=
  let a0 := node.state.foldl
    (fun d kv => ainsert d kv.1 (if kv.2 then "true" else "false")) []
  let a1 := if node.role ≠ "" then ainsert a0 "role" node.role else a0
  let a2 := if node.name ≠ "" then ainsert a1 "name" node.name else a1
  match node.value with
  | some v => if v ≠ "" then ainsert a2 "value" v else a2
  | none => a2

/-- Embeds `ElementIndexer._convert_to_indexed_element`.  `none` models the
uncaught `ValueError` raised by `ElementRole(role)` on a role string that
is not an enum value.  The states loop filters on membership in
`ElementState.__members__`, which is keyed by upper-case member names, and
the guarded `ElementState(state_name)` call skips names that are not enum
values, so a label survives only if it is both a member name and a value. -/
def convert_to_indexed_element (n : IndexedNode) : Option IndexedElement :=
  let states := n.node.state.filterMap fun kv =>
    if kv.1 ∈ elementStateMemberNames ∧ kv.1 ∈ elementStateValues then some kv.1 else none
  let roleOpt : Option String :=
    if n.node.role ≠ "" then
      (if n.node.role ∈ elementRoleValues then some n.node.role else none)
    else some "generic"
  match roleOpt with
  | none => none
  | some r =>
      some { index := n.index, role := r, text := n.node.name
             tag_name := n.tag_name, attributes := n.attributes, states := states
             xpath := n.xpath, bounding_box := n.bounding_box
             is_interactive := n.is_interactive, parent_index := n.parent_index
             children_indices := n.children_indices }

/-- Embeds `ElementIndexer._index_single_node`.  The three index maps are
updated before the conversion to `IndexedElement` is attempted, so a
conversion failure (invalid role) leaves the node indexed but produces no
element, exactly as in the source where the `except` clause fires after
lines 162-164 have run. -/
def index_single_node (cfg : DOMAnalyzerConfig) (s : IState)
    (node : AccessibilityNode) : IState × Option IndexedElement :=
  if should_index_node cfg node then
    let index_type := determine_index_type node
    let si :=
      if index_type = "interactive" then get_or_create_interactive_index s node
      else get_or_create_element_index s node
    let s1 := si.1
    let index := si.2
    let inode : IndexedNode :=
      { node := node
        index := index
        parent_index := get_parent_index s1 node
        children_indices := get_children_indices s1 node
        depth := calculate_depth s1 node
        is_new := is_node_new s1 node
        bounding_box := none
        xpath := generate_xpath node
        tag_name := extract_tag_name node
        attributes := extract_attributes node
        is_interactive := index_type = "interactive"
        interactive_type := if index_type = "interactive" then index_type else "" }
    let s2 := { s1 with
        index_to_node := ainsert s1.index_to_node index inode
        node_id_to_index := ainsert s1.node_id_to_index node.node_id index
        xpath_to_index := ainsert s1.xpath_to_index inode.xpath index }
    (s2, convert_to_indexed_element inode)
  else (s, none)

/-- The per-node loop body of `index_elements`, threading the state. -/
def index_nodes (cfg : DOMAnalyzerConfig) (s : IState) :
    List AccessibilityNode → IState × List IndexedElement
  | [] => (s, [])
  | node :: rest =>
      let r1 := index_single_node cfg s node
      let r2 := index_nodes cfg r1.1 rest
      (r2.1, r1.2.toList ++ r2.2)

/-- Embeds `ElementIndexer.index_elements`: reset the counter, clear the
current maps, index each node, update the statistics and save the current
maps as the previous-pass maps. -/
def index_elements (cfg : DOMAnalyzerConfig) (s : IState)
    (nodes : List AccessibilityNode) : IState × List IndexedElement :=
  let s0 := { s with element_counter := 0, index_to_node := []
                     node_id_to_index := [], xpath_to_index := [] }
  let r := index_nodes cfg s0 nodes
  let s1 := r.1
  let s2 := { s1 with
      stats_total_indexed := r.2.length
      stats_interactive_indexed :=
        (s1.index_to_node.filter (fun kv : Nat × IndexedNode => kv.2.is_interactive)).length }
  let s3 := { s2 with previous_indices := s2.node_id_to_index
                      previous_xpaths := s2.xpath_to_index }
  (s3, r.2)

/-- Converts a list of stored nodes, failing at the first node whose
conversion raises (the Python loops call `_convert_to_indexed_element`
without a surrounding try). -/
def convert_all : List IndexedNode → Option (List IndexedElement)
  | [] => some []
  | n :: rest =>
      match convert_to_indexed_element n, convert_all rest with
      | some e, some es => some (e :: es)
      | _, _ => none

/-- Comparison key of the final `sorted(..., key=lambda x: x.index)`. -/
def sortByIndex (l : List IndexedElement) : List IndexedElement :=
  List.insertionSort (fun a b => a.index ≤ b.index) l

instance : IsTotal IndexedElement (fun a b => a.index ≤ b.index) :=
  ⟨fun a b => Nat.le_total a.index b.index⟩

instance : IsTrans IndexedElement (fun a b => a.index ≤ b.index) :=
  ⟨fun _ _ _ hab hbc => Nat.le_trans hab hbc⟩

/-- Embeds `ElementIndexer.get_interactive_elements`. -/
def get_interactive_elements (s : IState) : Option (List IndexedElement) :=
  (convert_all ((s.index_to_node.map Prod.snd).filter
    (fun n => n.is_interactive))).map sortByIndex

/-- Embeds `ElementIndexer.get_elements_by_role`; the `role` argument is
the value string of the `ElementRole` member passed in the source. -/
def get_elements_by_role (s : IState) (role : String) : Option (List IndexedElement) :=
  (convert_all ((s.index_to_node.map Prod.snd).filter
    (fun n => decide (n.node.role = role)))).map sortByIndex

/-- Embeds `ElementIndexer.clear_cache`. -/
def clear_cache (s : IState) : IState :=
  { s with previous_indices := [], previous_xpaths := []
           stats_cached_hits := 0, stats_cache_misses := 0 }

end ElementIndexer

/-! ### DOM analyzer (`src/dom_analyzer/dom_analyzer.py`)

The CDP client is external I/O: the page info (url, title), the raw
accessibility tree and the page metrics that the awaits would fetch are
passed to `analyze_page` as arguments.  Wall-clock reads of `time.time()`
are passed as the single argument `now` (the analysis duration field,
a difference of two nearby reads, is fixed at 0).  The md5 dom hash is
represented by the string that the source would hash, since no claim
depends on the digest itself. -/

structure PageAnalysisResult where
  target_id : String
  timestamp : Int
  url : String
  title : String
  accessibility_nodes : List AccessibilityNode
  indexed_elements : List IndexedElement
  interactive_elements : List IndexedElement
  page_metrics : Option String
  dom_hash : String
  analysis_time : Int
  total_elements : Nat
  interactive_count : Nat
deriving DecidableEq

structure AnalyzerState where
  analysis_cache : List (String × PageAnalysisResult)
  last_analysis_time : List (String × Int)
  indexer : IState
  stats_total_analyses : Nat
  stats_cache_hits : Nat
  stats_cache_misses : Nat
deriving DecidableEq

/-- The state of a freshly constructed `DOMAnalyzer`. -/
def initAnalyzerState : AnalyzerState :=
  { analysis_cache := [], last_analysis_time := [], indexer := initIState
    stats_total_analyses := 0, stats_cache_hits := 0, stats_cache_misses := 0 }

namespace DOMAnalyzer

/-- Embeds `DOMAnalyzer._calculate_dom_hash` up to the final md5 call:
the concatenated description string that would be hashed. -/
def calculate_dom_hash (nodes : List AccessibilityNode)
    (elements : List IndexedElement) : String :=
  String.join (nodes.map fun n =>
    toString n.node_id ++ ":" ++ n.role ++ ":" ++ n.name ++ ":" ++
      (n.value.getD "None") ++ "|")
  ++ String.join (elements.map fun e =>
    toString e.index ++ ":" ++ e.role ++ ":" ++ e.text ++ "|")

/-- Embeds `DOMAnalyzer._should_use_cached_result`. -/
def should_use_cached_result (cfg : DOMAnalyzerConfig) (s : AnalyzerState)
    (target_id : String) (now : Int) : Bool :=
  match alookup s.analysis_cache target_id with
  | none => false
  | some _ =>
      match alookup s.last_analysis_time target_id with
      | none => false
      | some t => decide (now - t < cfg.indexing.cache_duration)

/-- Embeds `DOMAnalyzer.analyze_page`.  The second component is the
returned result; `none` models the exception propagated when
`get_interactive_elements` raises on an indexed node with an invalid
role, which happens after the indexer state has already been mutated and
before the cache is updated. -/
def analyze_page (cfg : DOMAnalyzerConfig) (s : AnalyzerState)
    (target_id : String) (force_refresh : Bool) (now : Int)
    (tree : Option (List RawNode)) (url title : String)
    (page_metrics : Option String) : AnalyzerState × Option PageAnalysisResult :=
  if force_refresh = false ∧ should_use_cached_result cfg s target_id now then
    ({ s with stats_cache_hits := s.stats_cache_hits + 1 },
     alookup s.analysis_cache target_id)
  else
    let s1 := { s with stats_cache_misses := s.stats_cache_misses + 1 }
    let nodes := AccessibilityParser.parse_accessibility_tree cfg.accessibility tree
    let ir := ElementIndexer.index_elements cfg s1.indexer nodes
    match ElementIndexer.get_interactive_elements ir.1 with
    | none => ({ s1 with indexer := ir.1 }, none)
    | some interactive =>
        let result : PageAnalysisResult :=
          { target_id := target_id
            timestamp := now
            url := url
            title := title
            accessibility_nodes := nodes
            indexed_elements := ir.2
            interactive_elements := interactive
            page_metrics := page_metrics
            dom_hash := calculate_dom_hash nodes ir.2
            analysis_time := 0
            total_elements := ir.2.length
            interactive_count := interactive.length }
        ({ s1 with
            indexer := ir.1
            analysis_cache := ainsert s1.analysis_cache target_id result
            last_analysis_time := ainsert s1.last_analysis_time target_id now
            stats_total_analyses := s1.stats_total_analyses + 1 },
         some result)

/-- Embeds `DOMAnalyzer.clear_cache`: `some key` clears one target,
`none` clears all.  The element indexer is not touched. -/
def clear_cache (s : AnalyzerState) (target_id : Option String) : AnalyzerState :=
  match target_id with
  | some key =>
      { s with analysis_cache := aremove s.analysis_cache key
               last_analysis_time := aremove s.last_analysis_time key }
  | none => { s with analysis_cache := [], last_analysis_time := [] }

end DOMAnalyzer

/-! ### Concrete fixtures used by counterexamples and witnesses -/

/-- A visible button node with the given identifier and name. -/
def btnNode (id : Nat) (nm : String) : AccessibilityNode :=
  { node_id := id, role := "button", name := nm, value := none
    description := none, state := [("visible", true)], children := []
    parent_id := none, backend_dom_node_id := none }

/-- A raw generic node carrying a truthy `clickable` property. -/
def rawClickable : RawNode :=
  { emptyRawNode with
    nodeId := 42
    role := some "generic"
    name := some "x"
    properties := [⟨"clickable", some (PyVal.bool true)⟩] }

/-- A raw node whose property list contains a truthy property named
`hidden` while the top-level `hidden` field is absent. -/
def rawHiddenProperty : RawNode :=
  { emptyRawNode with properties := [⟨"hidden", some (PyVal.bool true)⟩] }

/-- A minimal stored analysis result. -/
def trivialResult : PageAnalysisResult :=
  { target_id := "t", timestamp := 0, url := "", title := ""
    accessibility_nodes := [], indexed_elements := [], interactive_elements := []
    page_metrics := none, dom_hash := "", analysis_time := 0
    total_elements := 0, interactive_count := 0 }

/-- An analyzer whose cache holds a result for target `t` and whose
indexer still carries previous-pass maps. -/
def cexAnalyzerState : AnalyzerState :=
  { initAnalyzerState with
    analysis_cache := [("t", trivialResult)]
    last_analysis_time := [("t", 0)]
    indexer := { initIState with
                 previous_indices := [(42, 7)]
                 previous_xpaths := [("//button", 7)] } }

/-- Button node whose `parent_id` points at node 2. -/
def cycA : AccessibilityNode := { btnNode 1 "a" with parent_id := some 2 }

/-- Button node whose `parent_id` points back at node 1. -/
def cycB : AccessibilityNode := { btnNode 2 "b" with parent_id := some 1 }

/-- Button node whose `parent_id` enters the 1 ↔ 2 parent cycle. -/
def cycC : AccessibilityNode := { btnNode 3 "c" with parent_id := some 1 }

/-- The indexer state reached while `index_elements` processes the list
`[cycA, cycB, cycC]`, just as `_calculate_depth` is entered for `cycC`:
the cleared maps have been populated with nodes 1 and 2. -/
def cycState : IState :=
  (ElementIndexer.index_nodes defaultConfig
    { initIState with element_counter := 0, index_to_node := []
                      node_id_to_index := [], xpath_to_index := [] }
    [cycA, cycB]).1

/-- A button node marked hidden. -/
def hiddenBtnNode : AccessibilityNode :=
  { btnNode 1 "a" with state := [("hidden", true)] }

/-- A raw node with role `button`. -/
def rawButton : RawNode :=
  { emptyRawNode with nodeId := 10, role := some "button", name := some "ok" }

/-- A raw generic node with no qualifying state or property. -/
def rawGenericPlain : RawNode :=
  { emptyRawNode with nodeId := 11, role := some "generic", name := some "x" }

/-- A raw generic node with an `onclick` property whose value is `False`. -/
def rawOnclickFalse : RawNode :=
  { emptyRawNode with
    nodeId := 12
    role := some "generic"
    name := some "x"
    properties := [⟨"onclick", some (PyVal.bool false)⟩] }

/-- A named node whose role is outside the `ElementRole` enum but whose
state carries a `clickable` key, so the indexer classifies it interactive
yet its conversion to `IndexedElement` raises `ValueError`. -/
def headingClickableNode : AccessibilityNode :=
  { btnNode 1 "x" with role := "heading", state := [("clickable", true)] }

/-! ## Lemmas about the dictionary model -/

theorem alookup_isSome_iff_mem_keys {α β : Type} [DecidableEq α]
    (l : List (α × β)) (a : α) : (alookup l a).isSome = true ↔ a ∈ akeys l := by
  induction l with
  | nil => simp [alookup, akeys]
  | cons p rest ih =>
      obtain ⟨k, v⟩ := p
      by_cases h : k = a
      · subst h; simp [alookup, akeys]
      · simp [alookup, akeys, h, ih]
        exact fun hc => absurd hc.symm h

theorem alookup_mem {α β : Type} [DecidableEq α] {l : List (α × β)} {a : α} {b : β}
    (h : alookup l a = some b) : (a, b) ∈ l := by
  induction l with
  | nil => simp [alookup] at h
  | cons p rest ih =>
      obtain ⟨k, v⟩ := p
      by_cases hk : k = a
      · subst hk; simp [alookup] at h; simp [h]
      · simp [alookup, hk] at h
        exact List.mem_cons_of_mem _ (ih h)

theorem alookup_ainsert_self {α β : Type} [DecidableEq α]
    (l : List (α × β)) (k : α) (v : β) : alookup (ainsert l k v) k = some v := by
  induction l with
  | nil => simp [ainsert, alookup]
  | cons p rest ih =>
      obtain ⟨k1, v1⟩ := p
      by_cases h : k1 = k <;> simp [ainsert, alookup, h, ih]

theorem alookup_ainsert_ne {α β : Type} [DecidableEq α]
    (l : List (α × β)) {k m : α} (v : β) (h : m ≠ k) :
    alookup (ainsert l k v) m = alookup l m := by
  have hk : ¬k = m := fun hc => h hc.symm
  induction l with
  | nil => simp [ainsert, alookup, hk]
  | cons p rest ih =>
      obtain ⟨k1, v1⟩ := p
      by_cases h1 : k1 = k
      · subst h1
        simp [ainsert, alookup, hk]
      · simp [ainsert, alookup, h1, ih]

theorem mem_ainsert {α β : Type} [DecidableEq α]
    {l : List (α × β)} {k : α} {v : β} {kv : α × β}
    (h : kv ∈ ainsert l k v) : kv ∈ l ∨ kv = (k, v) := by
  induction l with
  | nil => simp [ainsert] at h; simp [h]
  | cons p rest ih =>
      obtain ⟨k1, v1⟩ := p
      by_cases h1 : k1 = k
      · subst h1
        simp [ainsert] at h
        rcases h with h | h
        · exact Or.inr (by simp [h])
        · exact Or.inl (List.mem_cons_of_mem _ h)
      · simp [ainsert, h1] at h
        rcases h with h | h
        · exact Or.inl (by simp [h])
        · rcases ih h with h2 | h2
          · exact Or.inl (List.mem_cons_of_mem _ h2)
          · exact Or.inr h2

theorem mem_akeys_ainsert {α β : Type} [DecidableEq α]
    (l : List (α × β)) (k a : α) (v : β) :
    a ∈ akeys (ainsert l k v) ↔ a ∈ akeys l ∨ a = k := by
  induction l with
  | nil => simp [ainsert, akeys]
  | cons p rest ih =>
      obtain ⟨k1, v1⟩ := p
      by_cases h1 : k1 = k
      · subst h1; simp [ainsert, akeys]; tauto
      · simp [ainsert, akeys, h1] at ih ⊢
        rw [ih]; tauto

/-! ## Claim theorems -/

/-- C1: cross-snapshot index stability fails in the code.  A first pass
over two buttons assigns node 2 the index 1 and records that in the
previous-pass map, yet a second pass over snapshot with the unrelated
node 1 removed reassigns node 2 the index 0: `index_elements` clears
`_node_id_to_index` and the reuse check consults that just-cleared
current-pass map, never `_previous_indices`. -/
theorem C1_cross_snapshot_stability_fails :
    ((ElementIndexer.index_elements defaultConfig initIState
        [btnNode 1 "a", btnNode 2 "b"]).2.map IndexedElement.index = [0, 1])
    ∧ (alookup (ElementIndexer.index_elements defaultConfig initIState
        [btnNode 1 "a", btnNode 2 "b"]).1.previous_indices 2 = some 1)
    ∧ ((ElementIndexer.index_elements defaultConfig
          (ElementIndexer.index_elements defaultConfig initIState
            [btnNode 1 "a", btnNode 2 "b"]).1
          [btnNode 2 "b"]).2.map IndexedElement.index = [0]) := by
  refine ⟨rfl, rfl, rfl⟩

/-- C2 counterexample: a generic node with a truthy `clickable` property
is interactive for the parser's §4.1 rule, but the indexer still
categorizes it as "element", because `_convert_to_accessibility_node`
drops parsed properties and `_determine_index_type` only sees roles and
state keys. -/
theorem C2_clickable_property_counterexample :
    AccessibilityParser.is_node_interactive defaultAccessibilityConfig
      (AccessibilityParser.parse_single_node defaultAccessibilityConfig rawClickable) = true ∧
    ElementIndexer.determine_index_type
      (AccessibilityParser.convert_to_accessibility_node
        (AccessibilityParser.parse_single_node defaultAccessibilityConfig rawClickable))
      = "element" := by
  refine ⟨rfl, rfl⟩

/-- C3 counterexample: clearing the analysis cache for target `t` removes
the stored result but leaves the indexer's previous-pass maps intact —
`DOMAnalyzer.clear_cache` never calls `ElementIndexer.clear_cache`. -/
theorem C3_invalidation_counterexample :
    alookup (DOMAnalyzer.clear_cache cexAnalyzerState (some "t")).analysis_cache "t" = none ∧
    (DOMAnalyzer.clear_cache cexAnalyzerState (some "t")).indexer.previous_indices = [(42, 7)] ∧
    (DOMAnalyzer.clear_cache cexAnalyzerState (some "t")).indexer.previous_xpaths
      = [("//button", 7)] := by
  refine ⟨rfl, rfl, rfl⟩

/-- C7 counterexample: a raw node whose property list contains a truthy
property named `hidden`, with the top-level `hidden` field absent, gets
BOTH the "hidden" and the "visible" state label. -/
theorem C7_both_labels_counterexample :
    "hidden" ∈ AccessibilityParser.extract_node_states rawHiddenProperty ∧
    "visible" ∈ AccessibilityParser.extract_node_states rawHiddenProperty := by
  refine ⟨by decide, by decide⟩

theorem alookup_eq_none_of_not_mem {α β : Type} [DecidableEq α]
    {l : List (α × β)} {a : α} (h : a ∉ akeys l) : alookup l a = none := by
  cases h2 : alookup l a with
  | none => rfl
  | some b =>
      exact absurd ((alookup_isSome_iff_mem_keys l a).mp (by simp [h2])) h

theorem alookup_aremove_self {α β : Type} [DecidableEq α]
    {l : List (α × β)} (h : (akeys l).Nodup) (k : α) :
    alookup (aremove l k) k = none := by
  induction l with
  | nil => rfl
  | cons p rest ih =>
      obtain ⟨k1, v1⟩ := p
      have h0 : (k1 :: akeys rest).Nodup := h
      obtain ⟨hnm, hnd⟩ := List.nodup_cons.mp h0
      by_cases h1 : k1 = k
      · subst h1
        simp only [aremove, if_pos rfl]
        exact alookup_eq_none_of_not_mem hnm
      · simp [aremove, alookup, h1]
        exact ih hnd

/-- C3 (amended): `DOMAnalyzer.clear_cache` removes the stored analysis
result and timestamp for one key (or all keys) but leaves the Stable
Indexer's previous-pass maps untouched; those maps are cleared only by
calling `ElementIndexer.clear_cache` directly, which `DOMAnalyzer`
never does. -/
theorem C3_clear_cache_scope (s : AnalyzerState) (key : String)
    (h1 : (akeys s.analysis_cache).Nodup)
    (h2 : (akeys s.last_analysis_time).Nodup) :
    alookup (DOMAnalyzer.clear_cache s (some key)).analysis_cache key = none ∧
    alookup (DOMAnalyzer.clear_cache s (some key)).last_analysis_time key = none ∧
    (DOMAnalyzer.clear_cache s (some key)).indexer = s.indexer ∧
    (DOMAnalyzer.clear_cache s none).analysis_cache = [] ∧
    (DOMAnalyzer.clear_cache s none).last_analysis_time = [] ∧
    (DOMAnalyzer.clear_cache s none).indexer = s.indexer ∧
    (ElementIndexer.clear_cache s.indexer).previous_indices = [] ∧
    (ElementIndexer.clear_cache s.indexer).previous_xpaths = [] := by
  refine ⟨alookup_aremove_self h1 key, alookup_aremove_self h2 key,
    rfl, rfl, rfl, rfl, rfl, rfl⟩

/-- Witness for C3_clear_cache_scope at the concrete fixture state. -/
theorem C3_clear_cache_scope_witness :
    (akeys cexAnalyzerState.analysis_cache).Nodup ∧
    alookup (DOMAnalyzer.clear_cache cexAnalyzerState (some "t")).analysis_cache "t" = none ∧
    (DOMAnalyzer.clear_cache cexAnalyzerState (some "t")).indexer = cexAnalyzerState.indexer := by
  refine ⟨by decide, (C3_clear_cache_scope cexAnalyzerState "t" (by decide) (by decide)).1,
    (C3_clear_cache_scope cexAnalyzerState "t" (by decide) (by decide)).2.2.1⟩

/-- C8: the `while` loop of `_calculate_depth` does not terminate on a
cyclic parent chain.  In the pass over `[cycA, cycB, cycC]`, when the
depth of `cycC` is computed, nodes 1 and 2 are both in the maps and are
each other's parents; the walk then alternates between identifiers 1 and
2 and never reaches an exit condition, whatever iteration bound (fuel) it
is given.  The spec requires this walk to terminate on every input. -/
theorem C8_depth_walk_diverges_on_cycle :
    ∀ fuel depth,
      ElementIndexer.calc_depth_go cycState.node_id_to_index cycState.index_to_node
        fuel cycC.parent_id depth = none := by
  have key : ∀ fuel depth,
      ElementIndexer.calc_depth_go cycState.node_id_to_index cycState.index_to_node
          fuel (some 1) depth = none
      ∧ ElementIndexer.calc_depth_go cycState.node_id_to_index cycState.index_to_node
          fuel (some 2) depth = none := by
    intro fuel
    induction fuel with
    | zero => intro depth; exact ⟨rfl, rfl⟩
    | succ n ih =>
        intro depth
        refine ⟨?_, ?_⟩
        · show ElementIndexer.calc_depth_go _ _ (n + 1) (some 1) depth = none
          have hstep : ElementIndexer.calc_depth_go cycState.node_id_to_index
              cycState.index_to_node (n + 1) (some 1) depth
              = ElementIndexer.calc_depth_go cycState.node_id_to_index
                cycState.index_to_node n (some 2) (depth + 1) := rfl
          exact hstep.trans (ih (depth + 1)).2
        · show ElementIndexer.calc_depth_go _ _ (n + 1) (some 2) depth = none
          have hstep : ElementIndexer.calc_depth_go cycState.node_id_to_index
              cycState.index_to_node (n + 1) (some 2) depth
              = ElementIndexer.calc_depth_go cycState.node_id_to_index
                cycState.index_to_node n (some 1) (depth + 1) := rfl
          exact hstep.trans (ih (depth + 1)).1
  intro fuel depth
  exact (key fuel depth).1

theorem goc_interactive_stats_sum (s : IState) (n : AccessibilityNode) :
    (ElementIndexer.get_or_create_interactive_index s n).1.stats_cached_hits
      + (ElementIndexer.get_or_create_interactive_index s n).1.stats_cache_misses
    = s.stats_cached_hits + s.stats_cache_misses + 1 := by
  unfold ElementIndexer.get_or_create_interactive_index
  cases h1 : alookup s.node_id_to_index n.node_id with
  | none => simp; omega
  | some ci =>
      cases h2 : alookup s.index_to_node ci with
      | none => simp [h1, h2]; omega
      | some cn =>
          by_cases h3 : cn.is_interactive = true <;> simp [h1, h2, h3] <;> omega

theorem goc_element_stats_sum (s : IState) (n : AccessibilityNode) :
    (ElementIndexer.get_or_create_element_index s n).1.stats_cached_hits
      + (ElementIndexer.get_or_create_element_index s n).1.stats_cache_misses
    = s.stats_cached_hits + s.stats_cache_misses + 1 := by
  unfold ElementIndexer.get_or_create_element_index
  cases h1 : alookup s.node_id_to_index n.node_id with
  | none => simp; omega
  | some ci =>
      cases h2 : alookup s.index_to_node ci with
      | none => simp [h1, h2]; omega
      | some cn => simp [h1, h2]; omega

theorem index_single_node_stats_sum (cfg : DOMAnalyzerConfig) (s : IState)
    (node : AccessibilityNode) (h : ElementIndexer.should_index_node cfg node = true) :
    (ElementIndexer.index_single_node cfg s node).1.stats_cached_hits
      + (ElementIndexer.index_single_node cfg s node).1.stats_cache_misses
    = s.stats_cached_hits + s.stats_cache_misses + 1 := by
  unfold ElementIndexer.index_single_node
  by_cases ht : ElementIndexer.determine_index_type node = "interactive"
  · simp [h, ht]
    exact goc_interactive_stats_sum s node
  · simp [h, ht]
    exact goc_element_stats_sum s node

theorem stateGet_true_iff_mem {node : AccessibilityNode}
    (hvals : ∀ p ∈ node.state, p.2 = true) :
    (ElementIndexer.stateGet node.state "hidden" = true) ↔
      "hidden" ∈ akeys node.state := by
  have hiff := alookup_isSome_iff_mem_keys node.state "hidden"
  unfold ElementIndexer.stateGet
  cases h2 : alookup node.state "hidden" with
  | none =>
      rw [h2] at hiff; simp at hiff ⊢
      exact hiff
  | some b =>
      have hb : b = true := hvals _ (alookup_mem h2)
      rw [h2] at hiff; simp at hiff
      simp [hb, hiff]

/-- C5: a parsed node is excluded from indexing — `_index_single_node`
returns no element and leaves the indexer state untouched — exactly when
its state includes "hidden", or its name is empty with role "generic",
or its name exceeds the configured maximum text length.  (Parsed nodes
store only `True` state values, captured by the hypothesis.) -/
theorem C5_eligibility_filter (cfg : DOMAnalyzerConfig) (s : IState)
    (node : AccessibilityNode) (hvals : ∀ p ∈ node.state, p.2 = true) :
    ElementIndexer.index_single_node cfg s node = (s, none) ↔
      ("hidden" ∈ akeys node.state
        ∨ (node.name = "" ∧ node.role = "generic")
        ∨ node.name.length > cfg.accessibility.max_text_length) := by
  have hstate := stateGet_true_iff_mem hvals
  have hshould : (ElementIndexer.should_index_node cfg node = false) ↔
      ("hidden" ∈ akeys node.state
        ∨ (node.name = "" ∧ node.role = "generic")
        ∨ node.name.length > cfg.accessibility.max_text_length) := by
    unfold ElementIndexer.should_index_node
    by_cases h1 : ElementIndexer.stateGet node.state "hidden" = true
    · simp [h1]
      exact Or.inl (hstate.mp h1)
    · have h1b : ElementIndexer.stateGet node.state "hidden" = false := by
        cases hsg : ElementIndexer.stateGet node.state "hidden" <;> simp_all
      by_cases h2 : node.name = "" ∧ node.role = "generic"
      · simp [h1b, h2]
      · by_cases h3 : node.name ≠ "" ∧ node.name.length > cfg.accessibility.max_text_length
        · simp [h1b, h2, h3]
        · simp [h1b, h2, h3]
          refine ⟨fun hm => h1 (hstate.mpr hm), ?_⟩
          by_cases hn : node.name = ""
          · rw [hn]; simp
          · push_neg at h3
            exact h3 hn
  constructor
  · intro heq
    by_cases hs : ElementIndexer.should_index_node cfg node = true
    · exfalso
      have hst := index_single_node_stats_sum cfg s node hs
      rw [heq] at hst
      simp at hst
    · have hs2 : ElementIndexer.should_index_node cfg node = false := by
        cases hv : ElementIndexer.should_index_node cfg node <;> simp_all
      exact hshould.mp hs2
  · intro hr
    have hs := hshould.mpr hr
    unfold ElementIndexer.index_single_node
    simp [hs]

/-- Witness for C5_eligibility_filter: a hidden button is never indexed. -/
theorem C5_eligibility_filter_witness :
    (∀ p ∈ hiddenBtnNode.state, p.2 = true) ∧
    ElementIndexer.index_single_node defaultConfig initIState hiddenBtnNode
      = (initIState, none) := by
  refine ⟨by decide,
    (C5_eligibility_filter defaultConfig initIState hiddenBtnNode (by decide)).mpr (by decide)⟩

theorem mem_ite_singleton {c : Prop} [Decidable c] {x a : String} :
    x ∈ (if c then [a] else ([] : List String)) ↔ c ∧ x = a := by
  split <;> simp_all

theorem mem_ite_pair {c : Prop} [Decidable c] {x a b : String} :
    x ∈ (if c then [a] else [b]) ↔ (c ∧ x = a) ∨ (¬c ∧ x = b) := by
  split <;> simp_all

theorem mem_extract_node_states (d : RawNode) (x : String) :
    x ∈ AccessibilityParser.extract_node_states d ↔
      (((((((((∃ p ∈ d.properties,
            (p.name ∈ AccessibilityParser.importantStates ∧ optTruthy p.value = true)
              ∧ p.name = x)
          ∨ (optTruthy d.checked = true ∧ x = "checked"))
         ∨ (optTruthy d.expanded = true ∧ x = "expanded"))
        ∨ (optTruthy d.selected = true ∧ x = "selected"))
       ∨ (optTruthy d.disabled = true ∧ x = "disabled"))
      ∨ (optTruthy d.readonly = true ∧ x = "readonly"))
     ∨ (optTruthy d.required = true ∧ x = "required"))
    ∨ (optTruthy d.invalid = true ∧ x = "invalid"))
   ∨ (optTruthy d.focused = true ∧ x = "focused"))
  ∨ ((optTruthy d.hidden = true ∧ x = "hidden")
     ∨ (¬optTruthy d.hidden = true ∧ x = "visible")) := by
  simp only [AccessibilityParser.extract_node_states, List.mem_append, List.mem_filterMap,
    mem_ite_singleton, mem_ite_pair, Option.ite_none_right_eq_some, Option.some.injEq]

theorem extract_states_subset_important (d : RawNode) (x : String)
    (hx : x ∈ AccessibilityParser.extract_node_states d) :
    x ∈ AccessibilityParser.importantStates := by
  rw [mem_extract_node_states] at hx
  rcases hx with
    ((((((((⟨p, _, ⟨hi, _⟩, hn⟩ | h) | h) | h) | h) | h) | h) | h) | h) | (h | h) <;>
    first
      | exact hn ▸ hi
      | (rw [h.2]; decide)

/-- C7 (amended): for every raw node whose property list contains no
truthy property named "hidden" or "visible", the extracted state list
contains "hidden" exactly when the top-level hidden field is truthy and
"visible" exactly otherwise — so exactly one of the pair is present.  (A
truthy "hidden"/"visible" *property* can add the other label as well,
which is the counterexample to the original claim.) -/
theorem C7_visibility_exclusive (d : RawNode)
    (h : ∀ p ∈ d.properties,
      (p.name = "hidden" ∨ p.name = "visible") → optTruthy p.value = false) :
    ("hidden" ∈ AccessibilityParser.extract_node_states d ↔ optTruthy d.hidden = true) ∧
    ("visible" ∈ AccessibilityParser.extract_node_states d ↔ optTruthy d.hidden = false) ∧
    ¬("hidden" ∈ AccessibilityParser.extract_node_states d ∧
      "visible" ∈ AccessibilityParser.extract_node_states d) := by
  have hh : ("hidden" ∈ AccessibilityParser.extract_node_states d ↔ optTruthy d.hidden = true) := by
    rw [mem_extract_node_states]
    constructor
    · intro hx
      rcases hx with
        ((((((((⟨p, hp, ⟨_, ht⟩, hn⟩ | h1) | h1) | h1) | h1) | h1) | h1) | h1) | h1) | (h1 | h1)
      · rw [h p hp (Or.inl hn)] at ht; cases ht
      all_goals first | (exact absurd h1.2 (by decide)) | exact h1.1
    · intro ht
      exact Or.inr (Or.inl ⟨ht, rfl⟩)
  have hv : ("visible" ∈ AccessibilityParser.extract_node_states d ↔ optTruthy d.hidden = false) := by
    rw [mem_extract_node_states]
    constructor
    · intro hx
      rcases hx with
        ((((((((⟨p, hp, ⟨_, ht⟩, hn⟩ | h1) | h1) | h1) | h1) | h1) | h1) | h1) | h1) | (h1 | h1)
      · rw [h p hp (Or.inr hn)] at ht; cases ht
      all_goals first
        | (exact absurd h1.2 (by decide))
        | (cases hb : optTruthy d.hidden
           · rfl
           · exact absurd hb h1.1)
    · intro ht
      exact Or.inr (Or.inr ⟨by simp [ht], rfl⟩)
  refine ⟨hh, hv, ?_⟩
  rintro ⟨h1, h2⟩
  rw [hh] at h1
  rw [hv] at h2
  rw [h1] at h2
  cases h2

/-- Witness for C7_visibility_exclusive on a node without state
properties: only "visible" is present. -/
theorem C7_visibility_exclusive_witness :
    ("hidden" ∈ AccessibilityParser.extract_node_states rawButton ↔
       optTruthy rawButton.hidden = true) ∧
    ("visible" ∈ AccessibilityParser.extract_node_states rawButton ↔
       optTruthy rawButton.hidden = false) := by
  refine ⟨(C7_visibility_exclusive rawButton (by simp [rawButton, emptyRawNode])).1,
    (C7_visibility_exclusive rawButton (by simp [rawButton, emptyRawNode])).2.1⟩

theorem mem_akeys_foldl_ainsert (states : List String)
    (init : List (String × Bool)) (a : String) :
    a ∈ akeys (states.foldl (fun d s => ainsert d s true) init) ↔
      a ∈ akeys init ∨ a ∈ states := by
  induction states generalizing init with
  | nil => simp
  | cons s rest ih =>
      simp only [List.foldl_cons]
      rw [ih, mem_akeys_ainsert]
      simp
      tauto

/-- C2 (amended): after parsing and conversion, the indexer's
`_determine_index_type` classifies a node as "interactive" exactly when
its role lies in the indexer's hard-coded interactive-role set (which
equals the parser's default interactive-role vocabulary).  The state- and
property-based clauses of the §4.1 rule do not transfer: parsed state
labels never include clickable/pressable/selectable/focusable, and parsed
properties are dropped by `_convert_to_accessibility_node`, so a node
that gains a `clickable` property does not change category. -/
theorem C2_indexer_category_role_only (d : RawNode) :
    (ElementIndexer.determine_index_type
        (AccessibilityParser.convert_to_accessibility_node
          (AccessibilityParser.parse_single_node defaultAccessibilityConfig d))
       = "interactive"
     ↔ (AccessibilityParser.parse_single_node defaultAccessibilityConfig d).role
         ∈ ElementIndexer.indexerInteractiveRoles)
    ∧ ElementIndexer.indexerInteractiveRoles
        = defaultAccessibilityConfig.interactive_roles := by
  refine ⟨?_, rfl⟩
  by_cases hr : (AccessibilityParser.parse_single_node defaultAccessibilityConfig d).role
      ∈ ElementIndexer.indexerInteractiveRoles
  · simp [ElementIndexer.determine_index_type,
      AccessibilityParser.convert_to_accessibility_node, hr]
  · simp [ElementIndexer.determine_index_type,
      AccessibilityParser.convert_to_accessibility_node, hr]
    intro st hst
    apply alookup_eq_none_of_not_mem
    intro hmem
    have hmem2 : st ∈ AccessibilityParser.extract_node_states d := by
      have := (mem_akeys_foldl_ainsert
        (AccessibilityParser.parse_single_node defaultAccessibilityConfig d).states [] st).mp hmem
      simpa [akeys] using this
    have himp := extract_states_subset_important d st hmem2
    simp [ElementIndexer.indexerInteractiveStates] at hst
    rcases hst with h | h | h | h <;> subst h <;> revert himp <;> decide

/-- C6: the parser classifies a parsed node as interactive exactly when
its role is in the configured interactive-role vocabulary, or some
extracted state label is button/link/menuitem/tab, or some extracted
property named clickable/pressable/selectable has a truthy value, or a
property named onclick/onkeydown/onkeyup/onsubmit is present at all.  In
particular (with the default vocabulary) a parsed button is interactive,
a plain generic node is not, and a generic node with an `onclick`
property valued `False` is interactive. -/
theorem C6_parser_interactivity :
    (∀ (cfg : AccessibilityConfig) (node : ParsedAXNode),
      AccessibilityParser.is_node_interactive cfg node = true ↔
        (node.role ∈ cfg.interactive_roles
         ∨ (∃ st ∈ node.states, st ∈ ["button", "link", "menuitem", "tab"])
         ∨ (∃ p ∈ node.properties,
              p.name ∈ ["clickable", "pressable", "selectable"] ∧ p.value.truthy = true)
         ∨ (∃ p ∈ node.properties,
              p.name ∈ ["onclick", "onkeydown", "onkeyup", "onsubmit"])))
    ∧ AccessibilityParser.is_node_interactive defaultAccessibilityConfig
        (AccessibilityParser.parse_single_node defaultAccessibilityConfig rawButton) = true
    ∧ AccessibilityParser.is_node_interactive defaultAccessibilityConfig
        (AccessibilityParser.parse_single_node defaultAccessibilityConfig rawGenericPlain) = false
    ∧ AccessibilityParser.is_node_interactive defaultAccessibilityConfig
        (AccessibilityParser.parse_single_node defaultAccessibilityConfig rawOnclickFalse) = true := by
  refine ⟨?_, by decide, by decide, by decide⟩
  intro cfg node
  unfold AccessibilityParser.is_node_interactive
  split_ifs with h1 h2 h3 h4 <;>
    simp_all [List.any_eq_true, Bool.and_eq_true, decide_eq_true_eq]

/-- C9 counterexample: two raw nodes with the same identifier receive the
same index (the second is a cache hit on the current-pass map), so the
indices of one pass are not pairwise distinct on such input. -/
theorem C9_duplicate_id_counterexample :
    ((ElementIndexer.index_elements defaultConfig initIState
        [btnNode 1 "a", btnNode 1 "a"]).2.map IndexedElement.index = [0, 0])
    ∧ ¬ ((ElementIndexer.index_elements defaultConfig initIState
        [btnNode 1 "a", btnNode 1 "a"]).2.map IndexedElement.index).Nodup := by
  refine ⟨rfl, by decide⟩

theorem convert_to_indexed_element_index {n : IndexedNode} {e : IndexedElement}
    (h : ElementIndexer.convert_to_indexed_element n = some e) : e.index = n.index := by
  unfold ElementIndexer.convert_to_indexed_element at h
  by_cases hr : n.node.role = ""
  · simp [hr] at h
    subst h
    rfl
  · by_cases hv : n.node.role ∈ elementRoleValues
    · simp [hr, hv] at h
      subst h
      rfl
    · simp [hr, hv] at h

theorem index_single_node_skip (cfg : DOMAnalyzerConfig) (s : IState)
    (node : AccessibilityNode)
    (hs : ElementIndexer.should_index_node cfg node = false) :
    ElementIndexer.index_single_node cfg s node = (s, none) := by
  unfold ElementIndexer.index_single_node
  simp [hs]

theorem index_single_node_fresh (cfg : DOMAnalyzerConfig) (s : IState)
    (node : AccessibilityNode)
    (hs : ElementIndexer.should_index_node cfg node = true)
    (hfresh : alookup s.node_id_to_index node.node_id = none) :
    (ElementIndexer.index_single_node cfg s node).1.element_counter
        = s.element_counter + 1 ∧
    (ElementIndexer.index_single_node cfg s node).1.node_id_to_index
        = ainsert s.node_id_to_index node.node_id s.element_counter ∧
    (∀ e ∈ (ElementIndexer.index_single_node cfg s node).2.toList,
        e.index = s.element_counter) := by
  unfold ElementIndexer.index_single_node
  by_cases ht : ElementIndexer.determine_index_type node = "interactive"
  · simp [hs, ht, ElementIndexer.get_or_create_interactive_index, hfresh]
    intro e he
    rw [convert_to_indexed_element_index he]
  · simp [hs, ht, ElementIndexer.get_or_create_element_index, hfresh]
    intro e he
    rw [convert_to_indexed_element_index he]

theorem index_nodes_fresh_invariant (cfg : DOMAnalyzerConfig) :
    ∀ (nodes : List AccessibilityNode) (s : IState),
      (∀ n ∈ nodes, alookup s.node_id_to_index n.node_id = none) →
      ((nodes.map AccessibilityNode.node_id).Nodup) →
      (∀ e ∈ (ElementIndexer.index_nodes cfg s nodes).2,
          s.element_counter ≤ e.index) ∧
      (((ElementIndexer.index_nodes cfg s nodes).2.map IndexedElement.index).Pairwise (· < ·)) := by
  intro nodes
  induction nodes with
  | nil =>
      intro s h1 h2
      exact ⟨by simp [ElementIndexer.index_nodes], by simp [ElementIndexer.index_nodes]⟩
  | cons node rest ih =>
      intro s h1 h2
      have h2tail : (rest.map AccessibilityNode.node_id).Nodup := (List.nodup_cons.mp h2).2
      have h2head : node.node_id ∉ rest.map AccessibilityNode.node_id := (List.nodup_cons.mp h2).1
      by_cases hs : ElementIndexer.should_index_node cfg node = true
      · have hfresh := h1 node (List.mem_cons_self node rest)
        obtain ⟨hc, hm, hout⟩ := index_single_node_fresh cfg s node hs hfresh
        have h1tail : ∀ n ∈ rest,
            alookup (ElementIndexer.index_single_node cfg s node).1.node_id_to_index n.node_id
              = none := by
          intro n hn
          rw [hm, alookup_ainsert_ne _ _
            (fun hc2 => h2head (by rw [← hc2]; exact List.mem_map_of_mem _ hn))]
          exact h1 n (List.mem_cons_of_mem _ hn)
        obtain ⟨ihB, ihC⟩ := ih (ElementIndexer.index_single_node cfg s node).1 h1tail h2tail
        have hrec : ElementIndexer.index_nodes cfg s (node :: rest)
            = ((ElementIndexer.index_nodes cfg (ElementIndexer.index_single_node cfg s node).1 rest).1,
               (ElementIndexer.index_single_node cfg s node).2.toList
                 ++ (ElementIndexer.index_nodes cfg (ElementIndexer.index_single_node cfg s node).1 rest).2) := rfl
        rw [hrec]
        constructor
        · intro e he
          simp only [List.mem_append] at he
          rcases he with he | he
          · rw [hout e he]
          · have := ihB e he
            omega
        · cases hco : (ElementIndexer.index_single_node cfg s node).2 with
          | none => simpa [hco] using ihC
          | some e0 =>
              have he0 : e0.index = s.element_counter := hout e0 (by simp [hco])
              simp only [hco, Option.toList_some, List.singleton_append, List.map_cons]
              rw [List.pairwise_cons]
              constructor
              · intro y hy
                simp only [List.mem_map] at hy
                obtain ⟨e, he, hye⟩ := hy
                have := ihB e he
                omega
              · exact ihC
      · have hs2 : ElementIndexer.should_index_node cfg node = false := by
          cases hv : ElementIndexer.should_index_node cfg node <;> simp_all
        have hskip := index_single_node_skip cfg s node hs2
        have hrec : ElementIndexer.index_nodes cfg s (node :: rest)
            = ((ElementIndexer.index_nodes cfg (ElementIndexer.index_single_node cfg s node).1 rest).1,
               (ElementIndexer.index_single_node cfg s node).2.toList
                 ++ (ElementIndexer.index_nodes cfg (ElementIndexer.index_single_node cfg s node).1 rest).2) := rfl
        rw [hrec, hskip]
        simp only [Option.toList_none, List.nil_append]
        exact ih s (fun n hn => h1 n (List.mem_cons_of_mem _ hn)) h2tail

/-- C9 (amended): when the input nodes have pairwise distinct identifiers,
one pass of `index_elements` emits elements whose indices are strictly
increasing in discovery order, hence pairwise distinct (and non-negative,
the counter starting from 0).  The original claim fails on inputs with a
repeated identifier: the repeat is a current-pass cache hit and reuses
the same index (see the counterexample). -/
theorem C9_indices_strictly_increasing (cfg : DOMAnalyzerConfig) (s : IState)
    (nodes : List AccessibilityNode)
    (h : (nodes.map AccessibilityNode.node_id).Nodup) :
    ((ElementIndexer.index_elements cfg s nodes).2.map IndexedElement.index).Pairwise (· < ·) := by
  have hinv := index_nodes_fresh_invariant cfg nodes
    { s with element_counter := 0, index_to_node := []
             node_id_to_index := [], xpath_to_index := [] }
    (fun n _ => rfl) h
  exact hinv.2

/-- Witness for C9_indices_strictly_increasing on two distinct buttons. -/
theorem C9_indices_strictly_increasing_witness :
    (([btnNode 1 "a", btnNode 2 "b"].map AccessibilityNode.node_id).Nodup) ∧
    ((ElementIndexer.index_elements defaultConfig initIState
        [btnNode 1 "a", btnNode 2 "b"]).2.map IndexedElement.index).Pairwise (· < ·) := by
  refine ⟨by decide, C9_indices_strictly_increasing defaultConfig initIState
    [btnNode 1 "a", btnNode 2 "b"] (by decide)⟩

theorem convert_to_indexed_element_of_valid_role {n : IndexedNode}
    (h : n.node.role = "" ∨ n.node.role ∈ elementRoleValues) :
    ElementIndexer.convert_to_indexed_element n ≠ none := by
  unfold ElementIndexer.convert_to_indexed_element
  rcases h with h | h
  · simp [h]
  · by_cases h0 : n.node.role = ""
    · simp [h0]
    · simp [h0, h]

theorem convert_all_eq_some {l : List IndexedNode}
    (h : ∀ n ∈ l, ElementIndexer.convert_to_indexed_element n ≠ none) :
    ∃ L, ElementIndexer.convert_all l = some L ∧
      (∀ e, e ∈ L ↔ ∃ n ∈ l, ElementIndexer.convert_to_indexed_element n = some e) ∧
      L.map IndexedElement.index = l.map IndexedNode.index := by
  induction l with
  | nil => exact ⟨[], rfl, by simp, rfl⟩
  | cons n rest ih =>
      obtain ⟨e0, he0⟩ := Option.ne_none_iff_exists'.mp (h n (List.mem_cons_self n rest))
      obtain ⟨L, hL, hmem, hmap⟩ := ih (fun m hm => h m (List.mem_cons_of_mem _ hm))
      refine ⟨e0 :: L, ?_, ?_, ?_⟩
      · simp [ElementIndexer.convert_all, he0, hL]
      · intro e
        simp only [List.mem_cons]
        constructor
        · rintro (rfl | he)
          · exact ⟨n, Or.inl rfl, he0⟩
          · obtain ⟨m, hm, hc⟩ := (hmem e).mp he
            exact ⟨m, Or.inr hm, hc⟩
        · rintro ⟨m, rfl | hm, hc⟩
          · exact Or.inl (Option.some.inj (he0.symm.trans hc)).symm
          · exact Or.inr ((hmem e).mpr ⟨m, hm, hc⟩)
      · simp [hmap, convert_to_indexed_element_index he0]

theorem query_sorted_exact (s : IState) (p : IndexedNode → Bool)
    (hkeys : (akeys s.index_to_node).Nodup)
    (hidx : ∀ kv ∈ s.index_to_node, (kv.2 : IndexedNode).index = kv.1)
    (hvalid : ∀ kv ∈ s.index_to_node, p kv.2 = true →
      (kv.2 : IndexedNode).node.role = "" ∨ (kv.2 : IndexedNode).node.role ∈ elementRoleValues) :
    ∃ L, (ElementIndexer.convert_all
            ((s.index_to_node.map Prod.snd).filter p)).map ElementIndexer.sortByIndex = some L ∧
      (L.map IndexedElement.index).Pairwise (· < ·) ∧
      (∀ e, e ∈ L ↔ ∃ kv ∈ s.index_to_node,
          p kv.2 = true ∧ ElementIndexer.convert_to_indexed_element kv.2 = some e) := by
  have hconv : ∀ n ∈ (s.index_to_node.map Prod.snd).filter p,
      ElementIndexer.convert_to_indexed_element n ≠ none := by
    intro n hn
    obtain ⟨hn2, hp⟩ := List.mem_filter.mp hn
    obtain ⟨kv, hkv, hkveq⟩ := List.mem_map.mp hn2
    exact convert_to_indexed_element_of_valid_role
      (hkveq ▸ hvalid kv hkv (by rw [hkveq]; exact hp))
  obtain ⟨L0, hL0, hmem0, hmap0⟩ := convert_all_eq_some hconv
  refine ⟨ElementIndexer.sortByIndex L0, ?_, ?_, ?_⟩
  · rw [hL0]
    rfl
  · have hperm : List.Perm (ElementIndexer.sortByIndex L0) L0 := List.perm_insertionSort _ _
    have hsorted : (ElementIndexer.sortByIndex L0).Pairwise (fun a b => a.index ≤ b.index) :=
      List.sorted_insertionSort _ _
    have hnd0 : (L0.map IndexedElement.index).Nodup := by
      rw [hmap0]
      have h1 : ((s.index_to_node.map Prod.snd).map IndexedNode.index)
          = akeys s.index_to_node := by
        rw [List.map_map]
        exact List.map_congr_left (fun kv hkv => hidx kv hkv)
      have h2 := (@List.filter_sublist _ p (s.index_to_node.map Prod.snd)).map
        IndexedNode.index
      rw [h1] at h2
      exact hkeys.sublist h2
    have hndS : ((ElementIndexer.sortByIndex L0).map IndexedElement.index).Nodup :=
      ((hperm.map IndexedElement.index).nodup_iff).mpr hnd0
    have hne : (ElementIndexer.sortByIndex L0).Pairwise (fun a b => a.index ≠ b.index) :=
      List.pairwise_map.mp hndS
    have := (hsorted.and hne).imp
      (fun hab => lt_of_le_of_ne hab.1 hab.2)
    exact List.pairwise_map.mpr this
  · intro e
    have hperm : List.Perm (ElementIndexer.sortByIndex L0) L0 := List.perm_insertionSort _ _
    rw [hperm.mem_iff, hmem0 e]
    constructor
    · rintro ⟨n, hn, hc⟩
      obtain ⟨hn2, hp⟩ := List.mem_filter.mp hn
      obtain ⟨kv, hkv, hkveq⟩ := List.mem_map.mp hn2
      exact ⟨kv, hkv, by rw [hkveq]; exact hp, by rw [hkveq]; exact hc⟩
    · rintro ⟨kv, hkv, hp, hc⟩
      exact ⟨kv.2, List.mem_filter.mpr ⟨List.mem_map_of_mem _ hkv, hp⟩, hc⟩

theorem akeys_ainsert_of_mem {α β : Type} [DecidableEq α]
    {l : List (α × β)} {k : α} (v : β) (h : k ∈ akeys l) :
    akeys (ainsert l k v) = akeys l := by
  induction l with
  | nil => cases h
  | cons p rest ih =>
      obtain ⟨k1, v1⟩ := p
      by_cases h1 : k1 = k
      · subst h1; simp [ainsert, akeys]
      · have h0 : k ∈ k1 :: akeys rest := h
        rcases List.mem_cons.mp h0 with hc | hc
        · exact absurd hc.symm h1
        · have hstep : akeys (ainsert ((k1, v1) :: rest) k v)
              = k1 :: akeys (ainsert rest k v) := by
            simp only [ainsert, if_neg h1, akeys, List.map_cons]
          rw [hstep, ih hc]
          rfl

theorem akeys_ainsert_of_not_mem {α β : Type} [DecidableEq α]
    {l : List (α × β)} {k : α} (v : β) (h : k ∉ akeys l) :
    akeys (ainsert l k v) = akeys l ++ [k] := by
  induction l with
  | nil => simp [ainsert, akeys]
  | cons p rest ih =>
      obtain ⟨k1, v1⟩ := p
      have h0 : k ∉ k1 :: akeys rest := h
      by_cases h1 : k1 = k
      · exact absurd (h1 ▸ List.mem_cons_self k1 (akeys rest)) h0
      · have h2 : k ∉ akeys rest := fun hc => h0 (List.mem_cons_of_mem _ hc)
        have hstep : akeys (ainsert ((k1, v1) :: rest) k v)
            = k1 :: akeys (ainsert rest k v) := by
          simp only [ainsert, if_neg h1, akeys, List.map_cons]
        rw [hstep, ih h2]
        rfl

theorem akeys_ainsert_nodup {α β : Type} [DecidableEq α]
    {l : List (α × β)} {k : α} (v : β) (h : (akeys l).Nodup) :
    (akeys (ainsert l k v)).Nodup := by
  by_cases hm : k ∈ akeys l
  · rw [akeys_ainsert_of_mem v hm]; exact h
  · rw [akeys_ainsert_of_not_mem v hm]
    simp [List.nodup_append, h, hm]

theorem goc_interactive_char (s : IState) (n : AccessibilityNode) :
    (ElementIndexer.get_or_create_interactive_index s n).1.index_to_node = s.index_to_node ∧
    s.element_counter ≤ (ElementIndexer.get_or_create_interactive_index s n).1.element_counter ∧
    (((ElementIndexer.get_or_create_interactive_index s n).2 = s.element_counter ∧
        (ElementIndexer.get_or_create_interactive_index s n).1.element_counter
          = s.element_counter + 1)
      ∨ ((ElementIndexer.get_or_create_interactive_index s n).2 ∈ akeys s.index_to_node ∧
        (ElementIndexer.get_or_create_interactive_index s n).1.element_counter
          = s.element_counter)) := by
  unfold ElementIndexer.get_or_create_interactive_index
  cases h1 : alookup s.node_id_to_index n.node_id with
  | none => exact ⟨rfl, Nat.le_succ _, Or.inl ⟨rfl, rfl⟩⟩
  | some ci =>
      cases h2 : alookup s.index_to_node ci with
      | none =>
          simp [h2]
      | some cn =>
          by_cases h3 : cn.is_interactive = true
          · simp [h2, h3]
            exact (alookup_isSome_iff_mem_keys _ _).mp (by simp [h2])
          · have h3b : cn.is_interactive = false := by
              cases hv : cn.is_interactive <;> simp_all
            simp [h2, h3b]

theorem goc_element_char (s : IState) (n : AccessibilityNode) :
    (ElementIndexer.get_or_create_element_index s n).1.index_to_node = s.index_to_node ∧
    s.element_counter ≤ (ElementIndexer.get_or_create_element_index s n).1.element_counter ∧
    (((ElementIndexer.get_or_create_element_index s n).2 = s.element_counter ∧
        (ElementIndexer.get_or_create_element_index s n).1.element_counter
          = s.element_counter + 1)
      ∨ ((ElementIndexer.get_or_create_element_index s n).2 ∈ akeys s.index_to_node ∧
        (ElementIndexer.get_or_create_element_index s n).1.element_counter
          = s.element_counter)) := by
  unfold ElementIndexer.get_or_create_element_index
  cases h1 : alookup s.node_id_to_index n.node_id with
  | none => exact ⟨rfl, Nat.le_succ _, Or.inl ⟨rfl, rfl⟩⟩
  | some ci =>
      cases h2 : alookup s.index_to_node ci with
      | none =>
          simp [h2]
      | some cn =>
          simp [h2]
          exact (alookup_isSome_iff_mem_keys _ _).mp (by simp [h2])

theorem index_single_node_map_inv (cfg : DOMAnalyzerConfig) (s : IState)
    (node : AccessibilityNode)
    (hk : (akeys s.index_to_node).Nodup)
    (he : ∀ kv ∈ s.index_to_node,
      (kv.2 : IndexedNode).index = kv.1 ∧ kv.1 < s.element_counter) :
    (akeys (ElementIndexer.index_single_node cfg s node).1.index_to_node).Nodup ∧
    (∀ kv ∈ (ElementIndexer.index_single_node cfg s node).1.index_to_node,
       (kv.2 : IndexedNode).index = kv.1 ∧
       kv.1 < (ElementIndexer.index_single_node cfg s node).1.element_counter) ∧
    (∀ kv ∈ (ElementIndexer.index_single_node cfg s node).1.index_to_node,
       kv ∈ s.index_to_node ∨
         ((kv.2 : IndexedNode).node = node ∧
          ((kv.2 : IndexedNode).is_interactive = true →
            ElementIndexer.determine_index_type node = "interactive"))) ∧
    s.element_counter ≤ (ElementIndexer.index_single_node cfg s node).1.element_counter := by
  by_cases hs : ElementIndexer.should_index_node cfg node = true
  case neg =>
    have hs2 : ElementIndexer.should_index_node cfg node = false := by
      cases hv : ElementIndexer.should_index_node cfg node <;> simp_all
    rw [index_single_node_skip cfg s node hs2]
    exact ⟨hk, fun kv hkv => he kv hkv, fun kv hkv => Or.inl hkv, le_refl _⟩
  case pos =>
  unfold ElementIndexer.index_single_node
  simp only [if_pos hs]
  by_cases ht : ElementIndexer.determine_index_type node = "interactive"
  · obtain ⟨hA, hB, hC⟩ := goc_interactive_char s node
    simp only [if_pos ht]
    rw [hA]
    refine ⟨akeys_ainsert_nodup _ hk, ?_, ?_, hB⟩
    · intro kv hkv
      rcases mem_ainsert hkv with hold | hnew
      · obtain ⟨h1, h2⟩ := he kv hold
        exact ⟨h1, lt_of_lt_of_le h2 hB⟩
      · subst hnew
        refine ⟨rfl, ?_⟩
        show (ElementIndexer.get_or_create_interactive_index s node).2
          < (ElementIndexer.get_or_create_interactive_index s node).1.element_counter
        rcases hC with ⟨hidx, hcnt⟩ | ⟨hmem, hcnt⟩
        · omega
        · obtain ⟨kv0, hkv0, hkeq⟩ := List.mem_map.mp hmem
          have h2 := (he kv0 hkv0).2
          omega
    · intro kv hkv
      rcases mem_ainsert hkv with hold | hnew
      · exact Or.inl hold
      · subst hnew
        exact Or.inr ⟨rfl, fun hint => of_decide_eq_true hint⟩
  · obtain ⟨hA, hB, hC⟩ := goc_element_char s node
    simp only [if_neg ht]
    rw [hA]
    refine ⟨akeys_ainsert_nodup _ hk, ?_, ?_, hB⟩
    · intro kv hkv
      rcases mem_ainsert hkv with hold | hnew
      · obtain ⟨h1, h2⟩ := he kv hold
        exact ⟨h1, lt_of_lt_of_le h2 hB⟩
      · subst hnew
        refine ⟨rfl, ?_⟩
        show (ElementIndexer.get_or_create_element_index s node).2
          < (ElementIndexer.get_or_create_element_index s node).1.element_counter
        rcases hC with ⟨hidx, hcnt⟩ | ⟨hmem, hcnt⟩
        · omega
        · obtain ⟨kv0, hkv0, hkeq⟩ := List.mem_map.mp hmem
          have h2 := (he kv0 hkv0).2
          omega
    · intro kv hkv
      rcases mem_ainsert hkv with hold | hnew
      · exact Or.inl hold
      · subst hnew
        exact Or.inr ⟨rfl, fun hint => of_decide_eq_true hint⟩

theorem index_nodes_map_inv (cfg : DOMAnalyzerConfig) :
    ∀ (nodes : List AccessibilityNode) (s : IState),
      (akeys s.index_to_node).Nodup →
      (∀ kv ∈ s.index_to_node,
        (kv.2 : IndexedNode).index = kv.1 ∧ kv.1 < s.element_counter) →
      (akeys (ElementIndexer.index_nodes cfg s nodes).1.index_to_node).Nodup ∧
      (∀ kv ∈ (ElementIndexer.index_nodes cfg s nodes).1.index_to_node,
        (kv.2 : IndexedNode).index = kv.1 ∧
        kv.1 < (ElementIndexer.index_nodes cfg s nodes).1.element_counter) ∧
      (∀ kv ∈ (ElementIndexer.index_nodes cfg s nodes).1.index_to_node,
        kv ∈ s.index_to_node ∨ ((kv.2 : IndexedNode).node ∈ nodes ∧
          ((kv.2 : IndexedNode).is_interactive = true →
            ElementIndexer.determine_index_type (kv.2 : IndexedNode).node = "interactive"))) := by
  intro nodes
  induction nodes with
  | nil =>
      intro s hk he
      exact ⟨hk, he, fun kv hkv => Or.inl hkv⟩
  | cons node rest ih =>
      intro s hk he
      obtain ⟨hk1, he1, hm1, _⟩ := index_single_node_map_inv cfg s node hk he
      obtain ⟨hk2, he2, hm2⟩ := ih (ElementIndexer.index_single_node cfg s node).1 hk1 he1
      have hrec : ElementIndexer.index_nodes cfg s (node :: rest)
          = ((ElementIndexer.index_nodes cfg
                (ElementIndexer.index_single_node cfg s node).1 rest).1,
             (ElementIndexer.index_single_node cfg s node).2.toList
               ++ (ElementIndexer.index_nodes cfg
                 (ElementIndexer.index_single_node cfg s node).1 rest).2) := rfl
      rw [hrec]
      refine ⟨hk2, he2, ?_⟩
      intro kv hkv
      rcases hm2 kv hkv with hmid | ⟨hnode, himp⟩
      · rcases hm1 kv hmid with hold | ⟨hnode, himp⟩
        · exact Or.inl hold
        · exact Or.inr ⟨by rw [hnode]; exact List.mem_cons_self node rest,
            by rw [hnode]; exact himp⟩
      · exact Or.inr ⟨List.mem_cons_of_mem _ hnode, himp⟩

theorem index_elements_map_inv (cfg : DOMAnalyzerConfig) (s : IState)
    (nodes : List AccessibilityNode) :
    (akeys (ElementIndexer.index_elements cfg s nodes).1.index_to_node).Nodup ∧
    (∀ kv ∈ (ElementIndexer.index_elements cfg s nodes).1.index_to_node,
        (kv.2 : IndexedNode).index = kv.1) ∧
    (∀ kv ∈ (ElementIndexer.index_elements cfg s nodes).1.index_to_node,
        (kv.2 : IndexedNode).node ∈ nodes ∧
        ((kv.2 : IndexedNode).is_interactive = true →
          ElementIndexer.determine_index_type (kv.2 : IndexedNode).node = "interactive")) := by
  obtain ⟨hk, he, hm⟩ := index_nodes_map_inv cfg nodes
    { s with element_counter := 0, index_to_node := []
             node_id_to_index := [], xpath_to_index := [] }
    (by simp [akeys]) (by simp)
  refine ⟨hk, fun kv hkv => (he kv hkv).1, ?_⟩
  intro kv hkv
  rcases hm kv hkv with hold | h
  · cases hold
  · exact h

/-- C10 counterexample: one indexing pass over a named node whose role
(`heading`) is outside the `ElementRole` enum and whose state contains a
`clickable` key stores that node with the interactivity flag set, but
`get_interactive_elements` then feeds it to the unguarded
`ElementRole(role)` conversion, which raises `ValueError` (modelled by
`none`): no element list is returned at all, refuting the claim that the
query returns the interactive elements after any indexing pass. -/
theorem C10_invalid_role_counterexample :
    (∃ kv ∈ (ElementIndexer.index_elements defaultConfig initIState
        [headingClickableNode]).1.index_to_node, (kv.2 : IndexedNode).is_interactive = true) ∧
    ElementIndexer.get_interactive_elements
      (ElementIndexer.index_elements defaultConfig initIState [headingClickableNode]).1
      = none := by
  refine ⟨by decide, rfl⟩

/-- C10 (amended): after any indexing pass, `get_elements_by_role` with a
valid `ElementRole` value (which the Python signature guarantees) returns
exactly the stored elements whose node role matches, sorted in strictly
ascending index order; `get_interactive_elements` likewise returns
exactly the stored elements whose interactivity flag is true, sorted
strictly ascending, provided every input node the indexer classifies
interactive has an empty or enum-valid role — true of all parser-produced
nodes, whose state labels never include the indexer's interactive state
keys.  Without that proviso the unguarded `ElementRole` conversion raises
(see the counterexample).  The needed map invariants (distinct keys, each
stored node's index equal to its key) are proved to hold after every
pass. -/
theorem C10_queries_after_pass (cfg : DOMAnalyzerConfig) (s0 : IState)
    (nodes : List AccessibilityNode) (role : String)
    (hrole : role ∈ elementRoleValues) :
    ((∀ n ∈ nodes, ElementIndexer.determine_index_type n = "interactive" →
        n.role = "" ∨ n.role ∈ elementRoleValues) →
      ∃ L, ElementIndexer.get_interactive_elements
          (ElementIndexer.index_elements cfg s0 nodes).1 = some L ∧
        (L.map IndexedElement.index).Pairwise (· < ·) ∧
        ∀ e, e ∈ L ↔ ∃ kv ∈ (ElementIndexer.index_elements cfg s0 nodes).1.index_to_node,
          (kv.2 : IndexedNode).is_interactive = true ∧
          ElementIndexer.convert_to_indexed_element kv.2 = some e) ∧
    (∃ L, ElementIndexer.get_elements_by_role
        (ElementIndexer.index_elements cfg s0 nodes).1 role = some L ∧
      (L.map IndexedElement.index).Pairwise (· < ·) ∧
      ∀ e, e ∈ L ↔ ∃ kv ∈ (ElementIndexer.index_elements cfg s0 nodes).1.index_to_node,
        (kv.2 : IndexedNode).node.role = role ∧
        ElementIndexer.convert_to_indexed_element kv.2 = some e) := by
  obtain ⟨hk, hi, hn⟩ := index_elements_map_inv cfg s0 nodes
  constructor
  · intro hsafe
    obtain ⟨L, hL, hsort, hmem⟩ := query_sorted_exact _
      (fun n => n.is_interactive) hk hi
      (fun kv hkv hp => by
        obtain ⟨hin, himp⟩ := hn kv hkv
        exact hsafe _ hin (himp hp))
    exact ⟨L, hL, hsort, hmem⟩
  · obtain ⟨L, hL, hsort, hmem⟩ := query_sorted_exact _
      (fun n => decide (n.node.role = role)) hk hi
      (fun kv hkv hp => Or.inr (by rw [of_decide_eq_true hp]; exact hrole))
    refine ⟨L, hL, hsort, ?_⟩
    intro e
    rw [hmem e]
    constructor
    · rintro ⟨kv, hkv, hp, hc⟩
      exact ⟨kv, hkv, of_decide_eq_true hp, hc⟩
    · rintro ⟨kv, hkv, hp, hc⟩
      exact ⟨kv, hkv, decide_eq_true hp, hc⟩

/-- Witness for C10_queries_after_pass on a pass over two distinct
buttons, querying role "button". -/
theorem C10_queries_after_pass_witness :
    (∃ L, ElementIndexer.get_interactive_elements
        (ElementIndexer.index_elements defaultConfig initIState
          [btnNode 1 "a", btnNode 2 "b"]).1 = some L ∧
       (L.map IndexedElement.index).Pairwise (· < ·) ∧
       ∀ e, e ∈ L ↔ ∃ kv ∈ (ElementIndexer.index_elements defaultConfig initIState
            [btnNode 1 "a", btnNode 2 "b"]).1.index_to_node,
         (kv.2 : IndexedNode).is_interactive = true ∧
         ElementIndexer.convert_to_indexed_element kv.2 = some e) ∧
    (∃ L, ElementIndexer.get_elements_by_role
        (ElementIndexer.index_elements defaultConfig initIState
          [btnNode 1 "a", btnNode 2 "b"]).1 "button" = some L ∧
       (L.map IndexedElement.index).Pairwise (· < ·) ∧
       ∀ e, e ∈ L ↔ ∃ kv ∈ (ElementIndexer.index_elements defaultConfig initIState
            [btnNode 1 "a", btnNode 2 "b"]).1.index_to_node,
         (kv.2 : IndexedNode).node.role = "button" ∧
         ElementIndexer.convert_to_indexed_element kv.2 = some e) :=
  ⟨(C10_queries_after_pass defaultConfig initIState
      [btnNode 1 "a", btnNode 2 "b"] "button" (by decide)).1 (by decide),
   (C10_queries_after_pass defaultConfig initIState
      [btnNode 1 "a", btnNode 2 "b"] "button" (by decide)).2⟩

/-- C4: cache TTL behaviour of `analyze_page`.  With `force_refresh`
false, a stored result whose age is strictly below the configured TTL
(default 30 s) is returned unchanged: the only state change is the
cache-hit counter.  Otherwise (forced, no stored result, or stale) a
fresh parse-and-index pass runs, its result — stamped with the current
time — is stored under the key, and the cache-miss counter increments. -/
theorem C4_cache_ttl (cfg : DOMAnalyzerConfig) (s : AnalyzerState) (target : String)
    (now : Int) (tree : Option (List RawNode)) (url title : String) (pm : Option String) :
    (∀ r t, alookup s.analysis_cache target = some r →
        alookup s.last_analysis_time target = some t →
        now - t < cfg.indexing.cache_duration →
        DOMAnalyzer.analyze_page cfg s target false now tree url title pm
          = ({ s with stats_cache_hits := s.stats_cache_hits + 1 }, some r))
    ∧ (∀ force : Bool,
        (force = true ∨ DOMAnalyzer.should_use_cached_result cfg s target now = false) →
        ∀ inter, ElementIndexer.get_interactive_elements
            (ElementIndexer.index_elements cfg s.indexer
              (AccessibilityParser.parse_accessibility_tree cfg.accessibility tree)).1
          = some inter →
        ∃ res, DOMAnalyzer.analyze_page cfg s target force now tree url title pm
            = ({ s with
                  analysis_cache := ainsert s.analysis_cache target res
                  last_analysis_time := ainsert s.last_analysis_time target now
                  indexer := (ElementIndexer.index_elements cfg s.indexer
                    (AccessibilityParser.parse_accessibility_tree cfg.accessibility tree)).1
                  stats_total_analyses := s.stats_total_analyses + 1
                  stats_cache_misses := s.stats_cache_misses + 1 }, some res)
          ∧ res.timestamp = now
          ∧ res.indexed_elements = (ElementIndexer.index_elements cfg s.indexer
              (AccessibilityParser.parse_accessibility_tree cfg.accessibility tree)).2
          ∧ res.interactive_elements = inter
          ∧ alookup (ainsert s.analysis_cache target res) target = some res) := by
  constructor
  · intro r t hr ht htt
    have hsc : DOMAnalyzer.should_use_cached_result cfg s target now = true := by
      unfold DOMAnalyzer.should_use_cached_result
      rw [hr, ht]
      exact decide_eq_true htt
    unfold DOMAnalyzer.analyze_page
    rw [if_pos ⟨rfl, hsc⟩, hr]
  · intro force hforce inter hinter
    have hcond : ¬(force = false ∧
        DOMAnalyzer.should_use_cached_result cfg s target now = true) := by
      rintro ⟨hf, hsc⟩
      rcases hforce with hforce | hforce
      · rw [hforce] at hf; cases hf
      · rw [hforce] at hsc; cases hsc
    unfold DOMAnalyzer.analyze_page
    rw [if_neg hcond]
    simp only [hinter]
    exact ⟨_, rfl, rfl, rfl, rfl, alookup_ainsert_self _ _ _⟩

/-- Witness for C4_cache_ttl: with the fixture cache entry stamped at
time 0, a call at time 10 is a hit returning the stored result, and a
call at time 31 is a miss that stores a fresh result stamped 31. -/
theorem C4_cache_ttl_witness :
    (DOMAnalyzer.analyze_page defaultConfig cexAnalyzerState "t" false 10 none "" "" none
      = ({ cexAnalyzerState with
            stats_cache_hits := cexAnalyzerState.stats_cache_hits + 1 },
         some trivialResult))
    ∧ (∃ res, DOMAnalyzer.analyze_page defaultConfig cexAnalyzerState "t" false 31 none "" "" none
        = ({ cexAnalyzerState with
              analysis_cache := ainsert cexAnalyzerState.analysis_cache "t" res
              last_analysis_time := ainsert cexAnalyzerState.last_analysis_time "t" 31
              indexer := (ElementIndexer.index_elements defaultConfig cexAnalyzerState.indexer
                (AccessibilityParser.parse_accessibility_tree
                  defaultConfig.accessibility none)).1
              stats_total_analyses := cexAnalyzerState.stats_total_analyses + 1
              stats_cache_misses := cexAnalyzerState.stats_cache_misses + 1 }, some res)
        ∧ res.timestamp = 31) := by
  constructor
  · exact (C4_cache_ttl defaultConfig cexAnalyzerState "t" 10 none "" "" none).1
      trivialResult 0 rfl rfl (by decide)
  · obtain ⟨res, heq, hts, _⟩ :=
      (C4_cache_ttl defaultConfig cexAnalyzerState "t" 31 none "" "" none).2
        false (Or.inr (by decide)) [] rfl
    exact ⟨res, heq, hts⟩

end DomAnalyzer
